import Mathlib

/-!
Verification of the stocklio portfolio tracker.

This file shallowly embeds the arithmetic and state-transforming parts of
the source (lib/utils.ts, lib/cache.ts, lib/api/real-data-client.ts, the
portfolio / dividends API route handlers) into Lean: JS numbers are modelled
as rationals, timestamps as integer milliseconds, nullable values as
`Option`, database and cache state is passed explicitly, and asynchronous
calls that can throw are modelled with `Except`.
-/

set_option autoImplicit false

namespace Stocklio

/-- JS `Math.round`: rounds half toward positive infinity. -/
def jsRound (q : ℚ) : ℤ := ⌊q + 1/2⌋

/-- `Math.round(x * 100) / 100`: round to 2 decimal places, as done throughout
lib/utils.ts and the data client. -/
def round2 (q : ℚ) : ℚ := (jsRound (q * 100) : ℚ) / 100

/-! ## lib/utils.ts : calculateProfitLoss -/

/-- Return value of `calculateProfitLoss`. -/
structure PLResult where
  currentValue : ℚ
  totalCost : ℚ
  profitLoss : ℚ
  returnPercent : ℚ
  deriving Repr, DecidableEq

/-- lib/utils.ts `calculateProfitLoss(currentPrice, avgPrice, shares)`. -/
def calculateProfitLoss (currentPrice avgPrice shares : ℚ) : PLResult :=
  let currentValue := currentPrice * shares
  let totalCost := avgPrice * shares
  let profitLoss := currentValue - totalCost
  let returnPercent := if totalCost > 0 then profitLoss / totalCost * 100 else 0
  { currentValue := round2 currentValue
    totalCost := round2 totalCost
    profitLoss := round2 profitLoss
    returnPercent := round2 returnPercent }

/-- JS division producing `none` in place of the non-finite results NaN and
Infinity (a JS division is non-finite exactly when the divisor is 0). -/
def divOpt (a b : ℚ) : Option ℚ := if b = 0 then none else some (a / b)

/-- The `returnPercent` computation of `calculateProfitLoss` with the division
tracked by `divOpt`, so that a NaN/Infinity outcome would surface as `none`. -/
def returnPercentChecked (currentPrice avgPrice shares : ℚ) : Option ℚ :=
  let currentValue := currentPrice * shares
  let totalCost := avgPrice * shares
  let profitLoss := currentValue - totalCost
  if totalCost > 0 then
    (divOpt profitLoss totalCost).map (fun r => round2 (r * 100))
  else
    some (round2 0)

/-! ## lib/cache.ts : cache providers and CacheManager

State is explicit: an in-memory cache is a partial map from keys to entries,
time is an integer `Date.now()` millisecond value supplied to each call.
Reads return the pair (result, cache state after the call) because an expired
entry is deleted by the read itself (lazy eviction). -/

/-- An entry of the in-memory `Map` of `MemoryCacheProvider`. -/
structure MemEntry (V : Type) where
  value : V
  expiresAt : ℤ

/-- The backing `Map` of `MemoryCacheProvider`. -/
def MemCache (V : Type) : Type := String → Option (MemEntry V)

namespace MemoryCacheProvider

/-- `MemoryCacheProvider.get`: absent or expired entries read as `null`; an
expired entry is removed by the read. -/
def get {V : Type} (m : MemCache V) (now : ℤ) (key : String) :
    Option V × MemCache V :=
  match m key with
  | none => (none, m)
  | some entry =>
    if now > entry.expiresAt then
      (none, fun k => if k = key then none else m k)
    else
      (some entry.value, m)

/-- `MemoryCacheProvider.set`: stores the value with expiry `now + ttl*1000`
(milliseconds), overwriting any existing entry. -/
def set {V : Type} (m : MemCache V) (key : String) (value : V) (ttl now : ℤ) :
    MemCache V :=
  fun k => if k = key then some ⟨value, now + ttl * 1000⟩ else m k

/-- `MemoryCacheProvider.delete`. -/
def del {V : Type} (m : MemCache V) (key : String) : MemCache V :=
  fun k => if k = key then none else m k

/-- `MemoryCacheProvider.has`: implemented in the source as `get(key) !== null`. -/
def hasKey {V : Type} (m : MemCache V) (now : ℤ) (key : String) :
    Bool × MemCache V :=
  let r := get m now key
  (r.1.isSome, r.2)

end MemoryCacheProvider

/-- A row of the persistent `Cache` table (key, serialized value, expiry). -/
structure DbEntry where
  value : String
  expiresAt : ℤ

/-- The persistent cache table, keyed by its primary key. -/
def DbCache : Type := String → Option DbEntry

namespace DatabaseCacheProvider

/-- `DatabaseCacheProvider.get`: a missing row reads as `null`; an expired row
is deleted by the read and reads as `null`; otherwise the stored string is
deserialized (`safeJsonParse`, `none` = parse failure). `parseVal` stands for
`JSON.parse` at the cached value type. -/
def get {V : Type} (parseVal : String → Option V) (db : DbCache) (now : ℤ)
    (key : String) : Option V × DbCache :=
  match db key with
  | none => (none, db)
  | some entry =>
    if now > entry.expiresAt then
      (none, fun k => if k = key then none else db k)
    else
      (parseVal entry.value, db)

/-- `DatabaseCacheProvider.set`: upserts the serialized value with expiry
`now + ttl*1000`. `stringifyVal` stands for `JSON.stringify`. -/
def set {V : Type} (stringifyVal : V → String) (db : DbCache) (key : String)
    (value : V) (ttl now : ℤ) : DbCache :=
  fun k => if k = key then some ⟨stringifyVal value, now + ttl * 1000⟩ else db k

end DatabaseCacheProvider

/-- Whether a character matches `[a-z0-9:_-]`. -/
def allowedChar (c : Char) : Bool :=
  (97 ≤ c.toNat && c.toNat ≤ 122) || (48 ≤ c.toNat && c.toNat ≤ 57) ||
    c == ':' || c == '_' || c == '-'

/-- One character of `.replace(/[^a-z0-9:_-]/g, '_')`. -/
def normChar (c : Char) : Char := if allowedChar c then c else '_'

/-- JS `toLowerCase()`, character-wise. -/
def jsToLowerCase (s : String) : String := String.mk (s.data.map Char.toLower)

/-- JS `toUpperCase()`, character-wise. -/
def jsToUpperCase (s : String) : String := String.mk (s.data.map Char.toUpper)

/-- JS `.replace(/[^a-z0-9:_-]/g, '_')`. -/
def replaceDisallowed (s : String) : String := String.mk (s.data.map normChar)

namespace CacheManager

/-- `CacheManager.normalizeKey`: lower-case, then replace every character
outside `[a-z0-9:_-]` by `_`. -/
def normalizeKey (key : String) : String := replaceDisallowed (jsToLowerCase key)

/-- `CacheManager.get` (memory backend): normalizes the key, then delegates. -/
def get {V : Type} (m : MemCache V) (now : ℤ) (key : String) :
    Option V × MemCache V :=
  MemoryCacheProvider.get m now (normalizeKey key)

/-- `CacheManager.set` (memory backend). -/
def set {V : Type} (m : MemCache V) (key : String) (value : V) (ttl now : ℤ) :
    MemCache V :=
  MemoryCacheProvider.set m (normalizeKey key) value ttl now

/-- `CacheManager.delete` (memory backend). -/
def del {V : Type} (m : MemCache V) (key : String) : MemCache V :=
  MemoryCacheProvider.del m (normalizeKey key)

/-- `CacheManager.has` (memory backend). -/
def hasKey {V : Type} (m : MemCache V) (now : ℤ) (key : String) :
    Bool × MemCache V :=
  MemoryCacheProvider.hasKey m now (normalizeKey key)

end CacheManager

/-! ## lib/api/real-data-client.ts : the market-data gateway

`Math.random()` draws are passed in explicitly (`RandomDraws`), fallible
awaited calls are passed in as `Except` outcomes, and the response cache is
the `CacheManager` state threaded through each call. -/

/-- `Math.round(x * 10000) / 10000`: percent-change rounding in the client. -/
def round4 (q : ℚ) : ℚ := (jsRound (q * 10000) : ℚ) / 10000

/-- JS `x || fallback` on a nullable number: `null` and `0` are falsy. -/
def jsOrNum (x : Option ℚ) (fallback : ℚ) : ℚ :=
  match x with
  | none => fallback
  | some q => if q = 0 then fallback else q

/-- JS `x || fallback` on a nullable integer column. -/
def jsOrInt (x : Option ℤ) (fallback : ℤ) : ℤ :=
  match x with
  | none => fallback
  | some n => if n = 0 then fallback else n

/-- A quote as returned by `RealDataClient` (the `timestamp: new Date()` field
is the current time). -/
structure StockQuote where
  ticker : String
  name : String
  price : ℚ
  change : ℚ
  changePercent : ℚ
  dayHigh : ℚ
  dayLow : ℚ
  openPrice : ℚ
  previousClose : ℚ
  volume : ℤ
  timestamp : ℤ
  deriving Repr, DecidableEq

/-- The columns of the `Stock` reference row that `getQuote` reads (the other
columns of the Prisma model are not consulted there). -/
structure Stock where
  ticker : String
  name : String
  currentPrice : Option ℚ
  dayChange : Option ℚ
  dayChangePercent : Option ℚ
  week52High : Option ℚ
  week52Low : Option ℚ
  volume : Option ℤ
  deriving Repr, DecidableEq

/-- `CompanyInfo` as returned by the client. -/
structure CompanyInfo where
  ticker : String
  name : String
  sector : String
  industry : String
  description : String
  website : String
  employees : ℤ
  headquarters : String
  founded : String
  deriving Repr, DecidableEq

/-- One `Math.random()` draw per field, each in `[0, 1)`. -/
structure RandomDraws where
  r1 : ℚ
  r2 : ℚ
  r3 : ℚ
  r4 : ℚ
  r5 : ℚ
  r6 : ℚ
  deriving Repr, DecidableEq

/-- The `stockPrices` table of `getRealisticPrice`. -/
def realisticPrices : List (String × ℚ) :=
  [("AAPL", 17550/100), ("GOOGL", 14230/100), ("MSFT", 37885/100),
   ("AMZN", 14520/100), ("TSLA", 24842/100), ("NVDA", 87530/100),
   ("META", 48575/100), ("NFLX", 48520/100), ("V", 26580/100),
   ("JPM", 15845/100), ("JNJ", 16230/100), ("WMT", 16585/100),
   ("PG", 15820/100), ("UNH", 48530/100), ("HD", 36585/100),
   ("BAC", 3875/100), ("XOM", 11520/100), ("CVX", 15845/100),
   ("LLY", 78530/100), ("ABBV", 16585/100), ("BLK", 72450/100),
   ("ADBE", 59010/100), ("AXP", 15875/100)]

/-- The (shorter) `stockPrices` table of `generateMockQuote`. -/
def mockPrices : List (String × ℚ) :=
  [("AAPL", 17550/100), ("GOOGL", 14230/100), ("MSFT", 37885/100),
   ("AMZN", 14520/100), ("TSLA", 24842/100), ("NVDA", 87530/100),
   ("META", 48575/100), ("NFLX", 48520/100), ("V", 26580/100),
   ("JPM", 15845/100), ("JNJ", 16230/100), ("WMT", 16585/100),
   ("PG", 15820/100), ("UNH", 48530/100), ("HD", 36585/100),
   ("BAC", 3875/100), ("XOM", 11520/100), ("CVX", 15845/100),
   ("LLY", 78530/100), ("ABBV", 16585/100)]

/-- The `companyNames` table of `getCompanyNameFromTicker`. -/
def companyNames : List (String × String) :=
  [("AAPL", "Apple Inc."), ("GOOGL", "Alphabet Inc. Class A"),
   ("MSFT", "Microsoft Corporation"), ("AMZN", "Amazon.com Inc."),
   ("TSLA", "Tesla Inc."), ("NVDA", "NVIDIA Corporation"),
   ("META", "Meta Platforms Inc."), ("NFLX", "Netflix Inc."),
   ("BABA", "Alibaba Group Holding Ltd."), ("V", "Visa Inc."),
   ("JPM", "JPMorgan Chase & Co."), ("JNJ", "Johnson & Johnson"),
   ("WMT", "Walmart Inc."), ("PG", "Procter & Gamble Co."),
   ("UNH", "UnitedHealth Group Inc."), ("HD", "Home Depot Inc."),
   ("BAC", "Bank of America Corp."), ("XOM", "Exxon Mobil Corporation"),
   ("CVX", "Chevron Corporation"), ("LLY", "Eli Lilly and Company"),
   ("ABBV", "AbbVie Inc."), ("BLK", "BlackRock Inc."),
   ("AXP", "American Express Company")]

/-- `getRealisticPrice`: table price, or `Math.random()*200 + 50`. -/
def getRealisticPrice (ticker : String) (rand : ℚ) : ℚ :=
  jsOrNum (realisticPrices.lookup (jsToUpperCase ticker)) (rand * 200 + 50)

/-- `getRealisticDayChange`: `(Math.random()-0.5)*6` percent of the price. -/
def getRealisticDayChange (price : ℚ) (rand : ℚ) : ℚ :=
  let changePercent := (rand - 1/2) * 6
  price * changePercent / 100

/-- `getCompanyNameFromTicker`: table name, or `"<TICKER> Corporation"`. -/
def getCompanyNameFromTicker (ticker : String) : String :=
  (companyNames.lookup (jsToUpperCase ticker)).getD ((jsToUpperCase ticker) ++ " Corporation")

/-- `generateMockQuote`: the synthetic quote used when no data is available. -/
def generateMockQuote (ticker : String) (r : RandomDraws) (now : ℤ) :
    StockQuote :=
  let basePrice := jsOrNum (mockPrices.lookup (jsToUpperCase ticker)) (r.r1 * 200 + 50)
  let change := (r.r2 - 1/2) * (basePrice * 5/100)
  let changePercent := change / basePrice
  let companyName := getCompanyNameFromTicker ticker
  { ticker := (jsToUpperCase ticker)
    name := companyName
    price := round2 basePrice
    change := round2 change
    changePercent := round4 changePercent
    dayHigh := round2 (basePrice + |change| + r.r3 * 5)
    dayLow := round2 (basePrice - |change| - r.r4 * 5)
    openPrice := round2 (basePrice - change + (r.r5 - 1/2) * 2)
    previousClose := round2 (basePrice - change)
    volume := ⌊r.r6 * 5000000⌋ + 1000000
    timestamp := now }

/-- The quote `getQuote` builds from a `Stock` reference row. -/
def quoteFromStock (ticker : String) (stock : Stock) (r : RandomDraws)
    (now : ℤ) : StockQuote :=
  let companyName :=
    if stock.name ≠ "" ∧ stock.name.trim ≠ "" then stock.name
    else getCompanyNameFromTicker ticker
  let basePrice := jsOrNum stock.currentPrice (getRealisticPrice ticker r.r1)
  let dayChange := jsOrNum stock.dayChange (getRealisticDayChange basePrice r.r2)
  let dayChangePercent :=
    jsOrNum stock.dayChangePercent (dayChange / basePrice * 100)
  { ticker := stock.ticker
    name := companyName
    price := basePrice
    change := dayChange
    changePercent := dayChangePercent
    dayHigh := jsOrNum stock.week52High (basePrice * 102/100)
    dayLow := jsOrNum stock.week52Low (basePrice * 98/100)
    openPrice := basePrice - dayChange + (r.r3 - 1/2) * 2
    previousClose := basePrice - dayChange
    volume := jsOrInt stock.volume (⌊r.r4 * 5000000⌋ + 1000000)
    timestamp := now }

/-- The `sectors` list of `generateMockCompanyInfo`. -/
def sectorsList : List String :=
  ["Technology", "Healthcare", "Financial Services", "Consumer Cyclical",
   "Industrials"]

/-- The `industries` list of `generateMockCompanyInfo`. -/
def industriesList : List String :=
  ["Software", "Biotechnology", "Banks", "Retail", "Aerospace"]

/-- `generateMockCompanyInfo`. -/
def generateMockCompanyInfo (ticker : String) (r : RandomDraws) : CompanyInfo :=
  { ticker := (jsToUpperCase ticker)
    name := (jsToUpperCase ticker) ++ " Corporation"
    sector := sectorsList.getD (⌊r.r1 * 5⌋).toNat ""
    industry := industriesList.getD (⌊r.r2 * 5⌋).toNat ""
    description := (jsToUpperCase ticker) ++ " Corporation is a leading company in its sector."
    website := "https://www." ++ (jsToLowerCase ticker) ++ ".com"
    employees := ⌊r.r3 * 100000⌋ + 1000
    headquarters := "United States"
    founded := "1990" }

/-- `RealDataClient.getQuote`: response cache first; on a miss, the `Stock`
reference row (the primary source, whose `findUnique` outcome is `dbResult`;
`.error` = the lookup threw, `.ok none` = no row); finally the synthetic
quote. Whatever wins is written to the cache with a 300 s TTL, and no error is
ever returned. -/
def getQuote (ticker : String) (st : MemCache StockQuote) (now : ℤ)
    (dbResult : Except Unit (Option Stock)) (r : RandomDraws) :
    StockQuote × MemCache StockQuote :=
  let cacheKey := "quote:" ++ ticker
  match CacheManager.get st now cacheKey with
  | (some cached, st') => (cached, st')
  | (none, st') =>
    match dbResult with
    | .ok (some stock) =>
      let quote := quoteFromStock ticker stock r now
      (quote, CacheManager.set st' cacheKey quote 300 now)
    | _ =>
      let mockQuote := generateMockQuote ticker r now
      (mockQuote, CacheManager.set st' cacheKey mockQuote 300 now)

/-- `RealDataClient.getCompanyInfo`: response cache first; on a miss, FMP
(primary), then Alpha Vantage (secondary), then the synthetic profile; the
winner is cached for 86400 s and no provider error is surfaced. -/
def getCompanyInfo (ticker : String) (st : MemCache CompanyInfo) (now : ℤ)
    (fmpResult avResult : Except Unit CompanyInfo) (r : RandomDraws) :
    CompanyInfo × MemCache CompanyInfo :=
  let cacheKey := "company:" ++ ticker
  match CacheManager.get st now cacheKey with
  | (some cached, st') => (cached, st')
  | (none, st') =>
    match fmpResult with
    | .ok info => (info, CacheManager.set st' cacheKey info 86400 now)
    | .error _ =>
      match avResult with
      | .ok info => (info, CacheManager.set st' cacheKey info 86400 now)
      | .error _ =>
        let mockInfo := generateMockCompanyInfo ticker r
        (mockInfo, CacheManager.set st' cacheKey mockInfo 86400 now)

/-! ## app/api/portfolio/route.ts : POST (add or merge a position) -/

/-- A row of the `Asset` table. -/
structure Asset where
  id : String
  ticker : String
  shares : ℚ
  avgPrice : ℚ
  purchaseDate : ℤ
  notes : Option String
  userId : String
  deriving Repr, DecidableEq

/-- JS `x || fallback` on a nullable string: `undefined` and `""` are falsy. -/
def jsOrStr (x : Option String) (fallback : Option String) : Option String :=
  match x with
  | none => fallback
  | some s => if s = "" then fallback else some s

/-- The database transformation performed by `POST /api/portfolio` once the
body has been validated and the ticker's quote check has passed: if the user
already has a position for the (upper-cased) ticker, merge into that row with
a weighted-average cost; otherwise create a new row. `newId` and `nowDate`
stand for the id and the default purchase date the database assigns to a
created row. -/
def postAddAsset (uid ticker : String) (shares avgPrice : ℚ)
    (purchaseDate : Option ℤ) (notes : Option String) (assets : List Asset)
    (newId : String) (nowDate : ℤ) : List Asset :=
  match assets.find? (fun a => a.ticker == (jsToUpperCase ticker) && a.userId == uid) with
  | some existingAsset =>
    let totalShares := existingAsset.shares + shares
    let totalCost :=
      existingAsset.shares * existingAsset.avgPrice + shares * avgPrice
    let newAvgPrice := totalCost / totalShares
    assets.map (fun a =>
      if a.id = existingAsset.id then
        { a with shares := totalShares, avgPrice := newAvgPrice,
                 notes := jsOrStr notes existingAsset.notes }
      else a)
  | none =>
    assets ++ [{ id := newId, ticker := (jsToUpperCase ticker), shares := shares,
                 avgPrice := avgPrice,
                 purchaseDate := purchaseDate.getD nowDate,
                 notes := notes, userId := uid }]

/-- The user's positions for a ticker (same row predicate as the handler's
`findFirst`). -/
def positionsFor (uid ticker : String) (assets : List Asset) : List Asset :=
  assets.filter (fun a => a.ticker == ticker && a.userId == uid)

/-! ## app/api/portfolio/summary/route.ts : aggregate totals -/

/-- The fields of an enriched asset that the summary aggregation reads. -/
structure EnrichedPosition where
  currentValue : ℚ
  totalCost : ℚ
  dayChange : ℚ
  profitLossPercent : ℚ
  deriving Repr, DecidableEq

/-- The aggregate block of the summary response. -/
structure SummaryTotals where
  totalValue : ℚ
  totalCost : ℚ
  totalProfitLoss : ℚ
  totalProfitLossPercent : ℚ
  dayChange : ℚ
  dayChangePercent : ℚ
  deriving Repr, DecidableEq

/-- The `// Calculate totals` block of `GET /api/portfolio/summary`. -/
def summaryTotals (enrichedAssets : List EnrichedPosition) : SummaryTotals :=
  let totalValue := enrichedAssets.foldl (fun s a => s + a.currentValue) (0 : ℚ)
  let totalCost := enrichedAssets.foldl (fun s a => s + a.totalCost) (0 : ℚ)
  let totalProfitLoss := totalValue - totalCost
  let totalProfitLossPercent :=
    if totalCost > 0 then totalProfitLoss / totalCost else 0
  let dayChange := enrichedAssets.foldl (fun s a => s + a.dayChange) (0 : ℚ)
  let dayChangePercent :=
    if totalValue > 0 then dayChange / (totalValue - dayChange) else 0
  { totalValue := totalValue, totalCost := totalCost
    totalProfitLoss := totalProfitLoss
    totalProfitLossPercent := totalProfitLossPercent
    dayChange := dayChange, dayChangePercent := dayChangePercent }

/-! ## app/api/dividends/upcoming/route.ts -/

/-- A dividend record as returned by `realDataClient.getDividends` (ex-date
and pay-date as parsed `Date` values, in epoch milliseconds). -/
structure DividendInfo where
  ticker : String
  amount : ℚ
  exDate : ℤ
  payDate : ℤ
  frequency : Option String
  deriving Repr, DecidableEq

/-- `[...new Set(list)]`: deduplicate keeping first occurrences. -/
def dedupFirst : List String → List String
  | [] => []
  | t :: ts => t :: (dedupFirst ts).filter (fun x => x ≠ t)

/-- One entry of the upcoming-dividends response (the database-sourced
`id`/`createdAt`/`assetId` echo fields are not modelled; the handler's
side-effecting upsert into the `Dividend` table does not influence the fields
modelled here). -/
structure UpcomingDividend where
  ticker : String
  exDate : ℤ
  payDate : ℤ
  amount : ℚ
  frequency : Option String
  companyName : String
  shares : ℚ
  totalAmount : ℚ
  deriving Repr, DecidableEq

/-- The payload cached and returned by `GET /api/dividends/upcoming`. -/
structure UpcomingResponse where
  dividends : List UpcomingDividend
  totalExpected : ℚ
  periodDays : ℤ
  periodStart : ℤ
  periodEnd : ℤ
  deriving Repr, DecidableEq

/-- The per-ticker loop body of the upcoming-dividends computation: all the
user's positions for the ticker are pooled (`totalShares`), zero-share tickers
are skipped, and dividends are kept when `today ≤ exDate ≤ endDate`. -/
def upcomingForTicker (assets : List Asset)
    (divOf : String → List DividendInfo) (quoteName : String → String)
    (today endDate : ℤ) (ticker : String) : List UpcomingDividend :=
  let tickerAssets := assets.filter (fun a => a.ticker == ticker)
  let totalShares := tickerAssets.foldl (fun s a => s + a.shares) (0 : ℚ)
  if totalShares = 0 then []
  else
    ((divOf ticker).filter
        (fun d => today ≤ d.exDate && d.exDate ≤ endDate)).map
      (fun d =>
        { ticker := ticker, exDate := d.exDate, payDate := d.payDate,
          amount := d.amount, frequency := d.frequency,
          companyName := quoteName ticker, shares := totalShares,
          totalAmount := d.amount * totalShares })

/-- Sort ascending by ex-date (the handler's final `.sort`). -/
def insertAscByExDate (d : UpcomingDividend) :
    List UpcomingDividend → List UpcomingDividend
  | [] => [d]
  | e :: es =>
    if e.exDate ≤ d.exDate then e :: insertAscByExDate d es else d :: e :: es

/-- Sorting by ex-date ascending (the ordering JS `.sort((a,b) => a-b)`
produces; order among equal ex-dates is irrelevant to the claims). -/
def sortByExDate : List UpcomingDividend → List UpcomingDividend
  | [] => []
  | d :: ds => insertAscByExDate d (sortByExDate ds)

/-- The fresh (cache-miss) response body of `GET /api/dividends/upcoming` for
a non-empty asset list: `divOf` is the dividend oracle
(`realDataClient.getDividends`), `quoteName` the company-name oracle, `today`
the request time, and the window end is `today` plus `days` days. -/
def upcomingResponse (assets : List Asset)
    (divOf : String → List DividendInfo) (quoteName : String → String)
    (today days : ℤ) : UpcomingResponse :=
  let endDate := today + days * 86400000
  let tickers := dedupFirst (assets.map (fun a => a.ticker))
  let upcomingDividends := sortByExDate
    ((tickers.map (upcomingForTicker assets divOf quoteName today endDate)).join)
  let totalExpected := upcomingDividends.foldl (fun s d => s + d.totalAmount) (0 : ℚ)
  { dividends := upcomingDividends, totalExpected := totalExpected,
    periodDays := days, periodStart := today, periodEnd := endDate }

/-- Outcome of `GET /api/dividends/upcoming`. -/
inductive UpcomingResult where
  | unauthorized
  | invalidDays
  | okEmpty
  | ok (resp : UpcomingResponse)
  deriving Repr, DecidableEq

/-- `GET /api/dividends/upcoming`: session check, days-window validation,
cache lookup under `dividends:upcoming:<days>` (note: no user identifier in
the key), else compute from the session user's assets and cache for 3600 s.
An empty portfolio short-circuits with an empty payload without caching. -/
def upcomingGET (sessionUser : Option String) (days : ℤ)
    (assetsOf : String → List Asset) (divOf : String → List DividendInfo)
    (quoteName : String → String) (today : ℤ)
    (st : MemCache UpcomingResponse) :
    UpcomingResult × MemCache UpcomingResponse :=
  match sessionUser with
  | none => (.unauthorized, st)
  | some uid =>
    if days < 1 ∨ days > 365 then (.invalidDays, st)
    else
      let cacheKey := "dividends:upcoming:" ++ toString days
      match CacheManager.get st today cacheKey with
      | (some cached, st') => (.ok cached, st')
      | (none, st') =>
        let assets := assetsOf uid
        if assets.isEmpty then (.okEmpty, st')
        else
          let response := upcomingResponse assets divOf quoteName today days
          (.ok response, CacheManager.set st' cacheKey response 3600 today)

/-! ## app/api/dividends/annual/route.ts : frequency inference -/

/-- Historical dividends: ex-date on or before today, sorted by ex-date
descending, last 4 kept. -/
def insertDescByExDate (d : DividendInfo) :
    List DividendInfo → List DividendInfo
  | [] => [d]
  | e :: es =>
    if d.exDate ≤ e.exDate then e :: insertDescByExDate d es else d :: e :: es

/-- Sorting by ex-date descending (the ordering of the handler's
`.sort((a,b) => b - a)`; order among equal ex-dates is irrelevant here). -/
def sortDescByExDate : List DividendInfo → List DividendInfo
  | [] => []
  | d :: ds => insertDescByExDate d (sortDescByExDate ds)

def recentOf (dividends : List DividendInfo) (today : ℤ) : List DividendInfo :=
  ((sortDescByExDate (dividends.filter (fun d => d.exDate ≤ today))).take 4)

/-- The gaps (in ms, as rationals) between consecutive ex-dates of a
descending list. -/
def gapsOf : List DividendInfo → List ℚ
  | a :: b :: rest => ((a.exDate - b.exDate : ℤ) : ℚ) :: gapsOf (b :: rest)
  | _ => []

/-- Average gap between consecutive ex-dates, in days
(`avgGap / (1000*60*60*24)`). -/
def avgGapDays (l : List DividendInfo) : ℚ :=
  let gaps := gapsOf l
  (gaps.foldl (· + ·) 0 / gaps.length) / 86400000

/-- The frequency-inference block of `GET /api/dividends/annual`: returns the
inferred payment frequency and the annualized amount
`latest per-share amount × multiplier × shares`. -/
def inferAnnual (dividends : List DividendInfo) (shares : ℚ) (today : ℤ) :
    String × ℚ :=
  let recentDividends := recentOf dividends today
  match recentDividends with
  | d0 :: _ :: _ =>
    let daysGap := avgGapDays recentDividends
    if daysGap < 35 then ("monthly", d0.amount * 12 * shares)
    else if daysGap < 100 then ("quarterly", d0.amount * 4 * shares)
    else if daysGap < 200 then ("semi-annual", d0.amount * 2 * shares)
    else ("annual", d0.amount * shares)
  | [d0] => ("quarterly", d0.amount * 4 * shares)
  | [] => ("quarterly", 0)

/-! ## app/api/portfolio/[id]/route.ts : PATCH and DELETE -/

/-- A row of the `Dividend` table (fields relevant to the cascade delete). -/
structure DividendRow where
  id : String
  ticker : String
  assetId : Option String
  deriving Repr, DecidableEq

/-- The relational state the asset routes touch. -/
structure Db where
  assets : List Asset
  dividends : List DividendRow
  deriving Repr, DecidableEq

/-- Response category of the asset routes. -/
inductive ApiStatus where
  | ok
  | badRequest
  | unauthorized
  | notFound
  deriving Repr, DecidableEq

/-- `DELETE /api/portfolio/[id]`: session check, id-format check
(`id.length < 20` rejects), ownership check via `findFirst({id, userId})`,
then delete the row and its linked dividends. -/
def deleteAsset (sessionUser : Option String) (id : String) (db : Db) :
    ApiStatus × Db :=
  match sessionUser with
  | none => (.unauthorized, db)
  | some uid =>
    if id.length < 20 then (.badRequest, db)
    else
      match db.assets.find? (fun a => a.id == id && a.userId == uid) with
      | none => (.notFound, db)
      | some _ =>
        (.ok, { assets := db.assets.filter (fun a => a.id ≠ id),
                dividends := db.dividends.filter (fun d => d.assetId ≠ some id) })

/-- The parsed PATCH body (`zod` `updateAssetSchema`); `notes` is optional and
nullable. -/
structure UpdateBody where
  shares : Option ℚ
  avgPrice : Option ℚ
  notes : Option (Option String)
  deriving Repr, DecidableEq

/-- `updateAssetSchema.safeParse` succeeds: shares in `[0.0001, 1000000]`,
avgPrice in `[0.01, 1000000]`, notes at most 500 characters. -/
def validUpdateBody (b : UpdateBody) : Bool :=
  (match b.shares with
   | none => true
   | some s => 1/10000 ≤ s && s ≤ 1000000) &&
  (match b.avgPrice with
   | none => true
   | some p => 1/100 ≤ p && p ≤ 1000000) &&
  (match b.notes with
   | none => true
   | some none => true
   | some (some n) => n.length ≤ 500)

/-- `PATCH /api/portfolio/[id]`: session check, id-format check, body
validation, ownership check, then update only the provided fields of the row. -/
def patchAsset (sessionUser : Option String) (id : String) (body : UpdateBody)
    (db : Db) : ApiStatus × Db :=
  match sessionUser with
  | none => (.unauthorized, db)
  | some uid =>
    if id.length < 20 then (.badRequest, db)
    else if ¬ validUpdateBody body then (.badRequest, db)
    else
      match db.assets.find? (fun a => a.id == id && a.userId == uid) with
      | none => (.notFound, db)
      | some _ =>
        (.ok, { db with assets := db.assets.map (fun a =>
            if a.id = id then
              { a with shares := body.shares.getD a.shares,
                       avgPrice := body.avgPrice.getD a.avgPrice,
                       notes := match body.notes with
                                | none => a.notes
                                | some n => n }
            else a) })

/-! ## Theorems -/

/-- A character matching `[a-z0-9:_-]` is not an ASCII capital, so JS
`toLowerCase` leaves it unchanged. -/
theorem toLower_of_allowed (c : Char) (h : allowedChar c = true) :
    Char.toLower c = c := by
  simp only [allowedChar, Bool.or_eq_true, Bool.and_eq_true, decide_eq_true_eq,
    beq_iff_eq, or_assoc] at h
  rcases h with (⟨h1, h2⟩ | ⟨h1, h2⟩ | rfl | rfl | rfl) <;>
    first
      | decide
      | (unfold Char.toLower; rw [if_neg (by omega)])

/-- The image of `normChar` always matches `[a-z0-9:_-]`. -/
theorem allowedChar_normChar (c : Char) : allowedChar (normChar c) = true := by
  unfold normChar
  by_cases h : allowedChar c = true
  · simpa [h]
  · simp [h]
    rfl

/-- `normChar` is the identity on its image. -/
theorem normChar_of_allowed (c : Char) (h : allowedChar c = true) :
    normChar c = c := by
  simp [normChar, h]

/-- `normalizeKey`, seen on the character list. -/
theorem normalizeKey_data (s : String) :
    (CacheManager.normalizeKey s).data =
      s.data.map (fun c => normChar (Char.toLower c)) := by
  simp [CacheManager.normalizeKey, replaceDisallowed, jsToLowerCase,
    List.map_map, Function.comp_def]

/-- Normalizing an already-normalized key yields the same key. -/
theorem normalizeKey_idem (s : String) :
    CacheManager.normalizeKey (CacheManager.normalizeKey s) =
      CacheManager.normalizeKey s := by
  have key : ∀ c : Char,
      normChar (Char.toLower (normChar (Char.toLower c))) =
        normChar (Char.toLower c) := by
    intro c
    have ha := allowedChar_normChar (Char.toLower c)
    rw [toLower_of_allowed _ ha, normChar_of_allowed _ ha]
  apply String.ext
  rw [normalizeKey_data, normalizeKey_data, List.map_map]
  apply List.map_congr_left
  intro c _
  exact key c

/-- Half-up rounding to 2 decimals moves a value by at most half a cent. -/
theorem round2_err (q : ℚ) : |round2 q - q| ≤ 1/200 := by
  unfold round2 jsRound
  rw [abs_le]
  constructor
  · have h := Int.sub_one_lt_floor (q * 100 + 1/2)
    nlinarith [h]
  · have h := Int.floor_le (q * 100 + 1/2)
    nlinarith [h]

/-- C2: The claim that `calculateProfitLoss` returns `totalCost = shares*avgCost`
exactly and that `profitLoss = currentValue - totalCost` holds between the
returned (2-decimal rounded) values is false: at `currentPrice = 0.014`,
`avgPrice = 0.005`, `shares = 1` the returned values are `currentValue = 0.01`,
`totalCost = 0.01`, `profitLoss = 0.01`, so the returned `profitLoss` differs
from the difference of the returned values, and the returned `totalCost`
differs from the exact `shares*avgCost`. -/
theorem C2_counterexample :
    ((calculateProfitLoss (7/500) (1/200) 1).profitLoss ≠
      (calculateProfitLoss (7/500) (1/200) 1).currentValue -
        (calculateProfitLoss (7/500) (1/200) 1).totalCost) ∧
    (calculateProfitLoss (7/500) (1/200) 1).totalCost ≠ 1 * (1/200) := by
  constructor <;> norm_num [calculateProfitLoss, round2, jsRound]

/-- C2 (amended): for `shares > 0`, `avgCost ≥ 0`, `currentPrice ≥ 0`, the
equations `totalCost = shares*avgCost` and `profitLoss = currentValue -
totalCost` hold exactly between the pre-rounding values; each returned field is
the half-up 2-decimal rounding of its exact counterpart, so the identity
between the returned values holds only up to a rounding discrepancy of at most
$0.015. -/
theorem C2_per_position_rounding (currentPrice avgPrice shares : ℚ)
    (hs : 0 < shares) (hac : 0 ≤ avgPrice) (hcp : 0 ≤ currentPrice) :
    (calculateProfitLoss currentPrice avgPrice shares).totalCost =
      round2 (shares * avgPrice) ∧
    (calculateProfitLoss currentPrice avgPrice shares).currentValue =
      round2 (currentPrice * shares) ∧
    (calculateProfitLoss currentPrice avgPrice shares).profitLoss =
      round2 (currentPrice * shares - shares * avgPrice) ∧
    |(calculateProfitLoss currentPrice avgPrice shares).profitLoss -
      ((calculateProfitLoss currentPrice avgPrice shares).currentValue -
        (calculateProfitLoss currentPrice avgPrice shares).totalCost)| ≤ 3/200 := by
  refine ⟨by simp [calculateProfitLoss, mul_comm], rfl, by simp [calculateProfitLoss, mul_comm], ?_⟩
  have h1 := round2_err (currentPrice * shares)
  have h2 := round2_err (avgPrice * shares)
  have h3 := round2_err (currentPrice * shares - avgPrice * shares)
  simp only [calculateProfitLoss]
  rw [abs_le] at h1 h2 h3 ⊢
  constructor <;> nlinarith [h1.1, h1.2, h2.1, h2.2, h3.1, h3.2]

/-- C2 witness: the amended statement evaluated at
`currentPrice = 0.014`, `avgPrice = 0.005`, `shares = 1`. -/
theorem C2_per_position_rounding_witness :
    (calculateProfitLoss (7/500) (1/200) 1).profitLoss =
      round2 (7/500 * 1 - 1 * (1/200)) :=
  (C2_per_position_rounding (7/500) (1/200) 1 (by norm_num) (by norm_num)
    (by norm_num)).2.2.1

/-- C3: the division by `totalCost` in `calculateProfitLoss` is guarded: the
checked computation (where a JS division by 0 would surface as `none`, i.e.
NaN/Infinity) always returns `some`, it agrees with the value
`calculateProfitLoss` returns, and whenever `totalCost = avgPrice*shares` is
`0` the returned `returnPercent` is exactly `0`. -/
theorem C3_zero_cost_guard (currentPrice avgPrice shares : ℚ) :
    (returnPercentChecked currentPrice avgPrice shares).isSome = true ∧
    returnPercentChecked currentPrice avgPrice shares =
      some ((calculateProfitLoss currentPrice avgPrice shares).returnPercent) ∧
    (avgPrice * shares = 0 →
      (calculateProfitLoss currentPrice avgPrice shares).returnPercent = 0) := by
  by_cases h : avgPrice * shares > 0
  · have hne : avgPrice * shares ≠ 0 := ne_of_gt h
    refine ⟨?_, ?_, fun h0 => absurd h0 hne⟩ <;>
      simp [returnPercentChecked, calculateProfitLoss, divOpt, h, hne]
  · have h0 : round2 0 = 0 := by norm_num [round2, jsRound]
    refine ⟨?_, ?_, fun _ => ?_⟩ <;>
      simp [returnPercentChecked, calculateProfitLoss, h, h0]

/-- C3 witness: zero-cost position (`avgPrice = 0`) yields `returnPercent = 0`. -/
theorem C3_zero_cost_guard_witness :
    (calculateProfitLoss 5 0 3).returnPercent = 0 :=
  (C3_zero_cost_guard 5 0 3).2.2 (by norm_num)

/-- C4: on both cache backends, `set(key, v, ttl)` immediately followed by
`get(key)` returns `v` unchanged (for the persistent backend: provided the
serializer round-trips on `v`, which `JSON.stringify`/`JSON.parse` does for the
JSON-representable values the app caches); at any instant strictly after the
`ttl` seconds have elapsed, `get(key)` returns absent and that read removes the
expired entry from the store. -/
theorem C4_cache_roundtrip {V : Type} (v : V) (key : String)
    (ttl now later : ℤ) (m : MemCache V) (db : DbCache)
    (stringifyVal : V → String) (parseVal : String → Option V)
    (httl : 0 < ttl)
    (hround : parseVal (stringifyVal v) = some v)
    (hlater : now + ttl * 1000 < later) :
    (MemoryCacheProvider.get (MemoryCacheProvider.set m key v ttl now) now
      key).1 = some v ∧
    (MemoryCacheProvider.get (MemoryCacheProvider.set m key v ttl now) later
      key).1 = none ∧
    (MemoryCacheProvider.get (MemoryCacheProvider.set m key v ttl now) later
      key).2 key = none ∧
    (DatabaseCacheProvider.get parseVal
      (DatabaseCacheProvider.set stringifyVal db key v ttl now) now key).1 =
      some v ∧
    (DatabaseCacheProvider.get parseVal
      (DatabaseCacheProvider.set stringifyVal db key v ttl now) later key).1 =
      none ∧
    (DatabaseCacheProvider.get parseVal
      (DatabaseCacheProvider.set stringifyVal db key v ttl now) later key).2
      key = none := by
  have hfresh : ¬ (now > now + ttl * 1000) := by omega
  have hexp : later > now + ttl * 1000 := hlater
  refine ⟨?_, ?_, ?_, ?_, ?_, ?_⟩ <;>
    simp [MemoryCacheProvider.get, MemoryCacheProvider.set,
      DatabaseCacheProvider.get, DatabaseCacheProvider.set, hfresh, hexp,
      hround]

/-- C4 witness: concrete round-trip on both backends with
`key = "quote:aapl"`, `v = 7`, `ttl = 300`, set at `t = 0`, re-read at
`t = 300001` ms. -/
theorem C4_cache_roundtrip_witness :
    (MemoryCacheProvider.get
      (MemoryCacheProvider.set (fun _ => none) "quote:aapl" (7 : ℕ) 300 0) 0
      "quote:aapl").1 = some 7 :=
  (C4_cache_roundtrip 7 "quote:aapl" 300 0 300001 (fun _ => none)
    (fun _ => none) (fun _ => "7") (fun _ => some 7) (by norm_num) rfl
    (by norm_num)).1

/-- C7: cache key normalization is idempotent; two keys that agree after
lower-casing normalize identically; and every `CacheManager` operation (get,
set, delete, has) applies the same normalization, so a value set under one
spelling is observable (and deletable) under the other. -/
theorem C7_key_normalization {V : Type} (k k₁ k₂ : String) (m : MemCache V)
    (v : V) (ttl now : ℤ) (httl : 0 < ttl)
    (hcase : jsToLowerCase k₁ = jsToLowerCase k₂) :
    CacheManager.normalizeKey (CacheManager.normalizeKey k) =
      CacheManager.normalizeKey k ∧
    CacheManager.normalizeKey k₁ = CacheManager.normalizeKey k₂ ∧
    (CacheManager.get (CacheManager.set m k₁ v ttl now) now k₂).1 = some v ∧
    (CacheManager.hasKey (CacheManager.set m k₁ v ttl now) now k₂).1 = true ∧
    (CacheManager.get
      (CacheManager.del (CacheManager.set m k₁ v ttl now) k₂) now k₁).1 =
      none := by
  have hnorm : CacheManager.normalizeKey k₁ = CacheManager.normalizeKey k₂ := by
    unfold CacheManager.normalizeKey
    rw [hcase]
  have hfresh : ¬ (now > now + ttl * 1000) := by omega
  refine ⟨normalizeKey_idem k, hnorm, ?_, ?_, ?_⟩ <;>
    simp [CacheManager.get, CacheManager.set, CacheManager.del,
      CacheManager.hasKey, MemoryCacheProvider.get, MemoryCacheProvider.set,
      MemoryCacheProvider.del, MemoryCacheProvider.hasKey, ← hnorm, hfresh]

/-- C7 witness: `set` under `"Quote:AAPL"`, `get` under `"quote:aapl"`. -/
theorem C7_key_normalization_witness :
    (CacheManager.get
      (CacheManager.set (fun _ => none) "Quote:AAPL" (5 : ℕ) 300 0) 0
      "quote:aapl").1 = some 5 :=
  (C7_key_normalization "k" "Quote:AAPL" "quote:aapl" (fun _ => none) 5 300 0
    (by norm_num) (by decide)).2.2.1

/-- C5: on a cache miss the gateway tries its sources strictly in priority
order and the first valid, non-empty result wins, always written back to the
cache: `getQuote` returns the `Stock`-row quote when the primary lookup
succeeds with a row; when the primary lookup fails, the secondary (synthetic)
source wins, is returned and is written to the cache. `getCompanyInfo`
returns FMP's profile when FMP succeeds; when FMP fails and Alpha Vantage
succeeds, the returned profile is Alpha Vantage's and it is written to the
cache. Both functions return a plain value for every provider outcome, so no
provider error reaches the caller. -/
theorem C5_provider_fallback (ticker : String) (now : ℤ) (r : RandomDraws)
    (stq : MemCache StockQuote) (stc : MemCache CompanyInfo)
    (stock : Stock) (info info' : CompanyInfo)
    (avAny : Except Unit CompanyInfo)
    (hmissq : (CacheManager.get stq now ("quote:" ++ ticker)).1 = none)
    (hmissc : (CacheManager.get stc now ("company:" ++ ticker)).1 = none) :
    (getQuote ticker stq now (.ok (some stock)) r).1 =
      quoteFromStock ticker stock r now ∧
    (getQuote ticker stq now (.error ()) r).1 =
      generateMockQuote ticker r now ∧
    (CacheManager.get (getQuote ticker stq now (.error ()) r).2 now
        ("quote:" ++ ticker)).1 = some (generateMockQuote ticker r now) ∧
    (getCompanyInfo ticker stc now (.ok info) avAny r).1 = info ∧
    (getCompanyInfo ticker stc now (.error ()) (.ok info') r).1 = info' ∧
    (CacheManager.get
        (getCompanyInfo ticker stc now (.error ()) (.ok info') r).2 now
        ("company:" ++ ticker)).1 = some info' := by
  rcases hq : CacheManager.get stq now ("quote:" ++ ticker) with ⟨cq, stq'⟩
  rcases hc : CacheManager.get stc now ("company:" ++ ticker) with ⟨cc, stc'⟩
  rw [hq] at hmissq
  rw [hc] at hmissc
  obtain rfl : cq = none := hmissq
  obtain rfl : cc = none := hmissc
  have h300 : ¬ (now > now + 300 * 1000) := by omega
  have h86400 : ¬ (now > now + 86400 * 1000) := by omega
  refine ⟨?_, ?_, ?_, ?_, ?_, ?_⟩ <;>
    simp only [getQuote, getCompanyInfo, hq, hc] <;>
    simp [CacheManager.get, CacheManager.set, MemoryCacheProvider.get,
      MemoryCacheProvider.set, h300, h86400]

/-- C5 witness: concrete cache-miss call in which the primary source fails
and the fallback's value is returned. -/
theorem C5_provider_fallback_witness :
    (getCompanyInfo "AAPL" (fun _ => none) 0 (.error ())
        (.ok { ticker := "AAPL", name := "Apple Inc.", sector := "Technology",
               industry := "Consumer Electronics", description := "d",
               website := "w", employees := 1, headquarters := "h",
               founded := "1976" }) ⟨0, 0, 0, 0, 0, 0⟩).1 =
      { ticker := "AAPL", name := "Apple Inc.", sector := "Technology",
        industry := "Consumer Electronics", description := "d", website := "w",
        employees := 1, headquarters := "h", founded := "1976" } :=
  (C5_provider_fallback "AAPL" 0 ⟨0, 0, 0, 0, 0, 0⟩ (fun _ => none)
    (fun _ => none)
    { ticker := "AAPL", name := "", currentPrice := none, dayChange := none,
      dayChangePercent := none, week52High := none, week52Low := none,
      volume := none }
    { ticker := "AAPL", name := "Apple Inc.", sector := "Technology",
      industry := "Consumer Electronics", description := "d", website := "w",
      employees := 1, headquarters := "h", founded := "1976" }
    { ticker := "AAPL", name := "Apple Inc.", sector := "Technology",
      industry := "Consumer Electronics", description := "d", website := "w",
      employees := 1, headquarters := "h", founded := "1976" }
    (.error ()) rfl rfl).2.2.2.2.1

/-- C9: the aggregate day-change percent of the portfolio summary divides the
summed dollar day change by the previous total value
`totalValue - dayChange`, not by the current total value. -/
theorem C9_day_change_denominator (enrichedAssets : List EnrichedPosition)
    (hne : enrichedAssets ≠ [])
    (hpos : 0 < (summaryTotals enrichedAssets).totalValue) :
    (summaryTotals enrichedAssets).dayChangePercent =
      (summaryTotals enrichedAssets).dayChange /
        ((summaryTotals enrichedAssets).totalValue -
          (summaryTotals enrichedAssets).dayChange) := by
  simp only [summaryTotals] at hpos ⊢
  rw [if_pos hpos]

/-- C9 witness: a one-position portfolio worth 100 with a day change of 10
reports `10 / (100 - 10)`, not `10 / 100`. -/
theorem C9_day_change_denominator_witness :
    (summaryTotals [⟨100, 50, 10, 0⟩]).dayChangePercent = 10 / (100 - 10) :=
  (C9_day_change_denominator [⟨100, 50, 10, 0⟩] (by simp)
    (by norm_num [summaryTotals])).trans (by norm_num [summaryTotals])

/-- C8: the dividend-frequency inference works on the last up-to-4 historical
ex-dates sorted descending; with at least 2 of them it classifies by the
average gap in days — monthly (< 35), quarterly (< 100), semi-annual (< 200),
else annual — and annualizes the latest per-share amount times 12/4/2/1 times
the held shares; with fewer than 2 historical ex-dates it defaults to
quarterly. -/
theorem C8_frequency_inference (dividends : List DividendInfo) (shares : ℚ)
    (today : ℤ) :
    (∀ (d0 d1 : DividendInfo) (rest : List DividendInfo),
      recentOf dividends today = d0 :: d1 :: rest →
      (avgGapDays (recentOf dividends today) < 35 →
        inferAnnual dividends shares today =
          ("monthly", d0.amount * 12 * shares)) ∧
      (35 ≤ avgGapDays (recentOf dividends today) →
        avgGapDays (recentOf dividends today) < 100 →
        inferAnnual dividends shares today =
          ("quarterly", d0.amount * 4 * shares)) ∧
      (100 ≤ avgGapDays (recentOf dividends today) →
        avgGapDays (recentOf dividends today) < 200 →
        inferAnnual dividends shares today =
          ("semi-annual", d0.amount * 2 * shares)) ∧
      (200 ≤ avgGapDays (recentOf dividends today) →
        inferAnnual dividends shares today =
          ("annual", d0.amount * shares))) ∧
    ((recentOf dividends today).length < 2 →
      (inferAnnual dividends shares today).1 = "quarterly") := by
  constructor
  · intro d0 d1 rest heq
    refine ⟨?_, ?_, ?_, ?_⟩
    · intro h35
      rw [heq] at h35
      simp only [inferAnnual, heq]
      rw [if_pos h35]
    · intro h35 h100
      rw [heq] at h35 h100
      simp only [inferAnnual, heq]
      rw [if_neg (not_lt.mpr h35), if_pos h100]
    · intro h100 h200
      rw [heq] at h100 h200
      simp only [inferAnnual, heq]
      rw [if_neg (not_lt.mpr (by linarith)), if_neg (not_lt.mpr h100),
        if_pos h200]
    · intro h200
      rw [heq] at h200
      simp only [inferAnnual, heq]
      rw [if_neg (not_lt.mpr (by linarith)), if_neg (not_lt.mpr (by linarith)),
        if_neg (not_lt.mpr h200)]
  · intro hlen
    rcases hrec : recentOf dividends today with _ | ⟨e0, _ | ⟨e1, rest⟩⟩
    · simp [inferAnnual, hrec]
    · simp [inferAnnual, hrec]
    · rw [hrec] at hlen
      simp only [List.length_cons] at hlen
      omega

/-- C8 witness: three historical ex-dates spaced exactly 91 days apart
(91 d = 7862400000 ms) classify as quarterly with a 4× annualization of the
latest $0.25 amount over 10 shares. -/
theorem C8_frequency_inference_witness :
    inferAnnual
      [⟨"T", 1/4, 0, 10, none⟩, ⟨"T", 1/4, 7862400000, 10, none⟩,
       ⟨"T", 1/4, 15724800000, 10, none⟩] 10 20000000000 =
      ("quarterly", 1/4 * 4 * 10) := by
  have heq : recentOf
      [⟨"T", 1/4, 0, 10, none⟩, ⟨"T", 1/4, 7862400000, 10, none⟩,
       ⟨"T", 1/4, 15724800000, 10, none⟩] 20000000000 =
      [⟨"T", 1/4, 15724800000, 10, none⟩, ⟨"T", 1/4, 7862400000, 10, none⟩,
       ⟨"T", 1/4, 0, 10, none⟩] := by
    norm_num [recentOf, sortDescByExDate, insertDescByExDate]
  have h := ((C8_frequency_inference
      [⟨"T", 1/4, 0, 10, none⟩, ⟨"T", 1/4, 7862400000, 10, none⟩,
       ⟨"T", 1/4, 15724800000, 10, none⟩] 10 20000000000).1
      ⟨"T", 1/4, 15724800000, 10, none⟩ ⟨"T", 1/4, 7862400000, 10, none⟩
      [⟨"T", 1/4, 0, 10, none⟩] heq).2.1
  rw [heq] at h
  exact h (by norm_num [avgGapDays, gapsOf]) (by norm_num [avgGapDays, gapsOf])

/-- C6: the upcoming-dividends cache key `dividends:upcoming:<days>` carries
no user identifier, so when user A's request (a cache miss, non-empty
portfolio) is followed within the 1-hour TTL by user B's request for the same
`days` window, B is served the response computed from A's holdings — whatever
B's own holdings are: per-user noninterference fails. -/
theorem C6_cross_user_cache_leak (userA userB : String) (days : ℤ)
    (assetsOf : String → List Asset) (divOf : String → List DividendInfo)
    (quoteName : String → String) (tA tB : ℤ)
    (st : MemCache UpcomingResponse)
    (hd1 : 1 ≤ days) (hd2 : days ≤ 365)
    (hmiss : (CacheManager.get st tA
      ("dividends:upcoming:" ++ toString days)).1 = none)
    (hA : assetsOf userA ≠ [])
    (hw1 : tA ≤ tB) (hw2 : tB ≤ tA + 3600 * 1000) :
    (upcomingGET (some userB) days assetsOf divOf quoteName tB
        (upcomingGET (some userA) days assetsOf divOf quoteName tA st).2).1 =
      .ok (upcomingResponse (assetsOf userA) divOf quoteName tA days) := by
  have hguard : ¬ (days < 1 ∨ days > 365) := by omega
  rcases hget : CacheManager.get st tA ("dividends:upcoming:" ++ toString days)
    with ⟨c, st'⟩
  rw [hget] at hmiss
  obtain rfl : c = none := hmiss
  have hAe : (assetsOf userA).isEmpty = false := by
    cases h' : assetsOf userA with
    | nil => exact absurd h' hA
    | cons a l => rfl
  have hfresh : ¬ (tA + 3600000 < tB) := by omega
  simp only [upcomingGET, hget, if_neg hguard, hAe, Bool.false_eq_true,
    if_false]
  simp [CacheManager.get, CacheManager.set, MemoryCacheProvider.get,
    MemoryCacheProvider.set, hfresh]

/-- C6 witness: Alice (one AAPL position) requests `days = 30` at `t = 0`
against an empty cache; Bob requests the same window at `t = 1000` ms and
receives the response computed from Alice's holdings. -/
theorem C6_cross_user_cache_leak_witness :
    (upcomingGET (some "bob") 30
        (fun u => if u = "alice"
          then [⟨"a0000000000000000000000", "AAPL", 5, 140, 0, none, "alice"⟩]
          else [])
        (fun _ => []) (fun t => t) 1000
        (upcomingGET (some "alice") 30
          (fun u => if u = "alice"
            then [⟨"a0000000000000000000000", "AAPL", 5, 140, 0, none, "alice"⟩]
            else [])
          (fun _ => []) (fun t => t) 0 (fun _ => none)).2).1 =
      .ok (upcomingResponse
        [⟨"a0000000000000000000000", "AAPL", 5, 140, 0, none, "alice"⟩]
        (fun _ => []) (fun t => t) 0 30) := by
  have h := C6_cross_user_cache_leak "alice" "bob" 30
    (fun u => if u = "alice"
      then [⟨"a0000000000000000000000", "AAPL", 5, 140, 0, none, "alice"⟩]
      else [])
    (fun _ => []) (fun t => t) 0 1000 (fun _ => none)
    (by norm_num) (by norm_num) rfl (by simp) (by norm_num) (by norm_num)
  simpa using h

/-- C10: the claim that an authenticated PATCH/DELETE on an asset the user
does not own (or that does not exist) always yields a not-found response is
false as stated: a request whose id fails the format check (`length < 20`)
targets no existing asset, yet yields an invalid-id 400 response, not
not-found. -/
theorem C10_counterexample :
    (deleteAsset (some "user1") "abc" ⟨[], []⟩).1 = ApiStatus.badRequest ∧
    (deleteAsset (some "user1") "abc" ⟨[], []⟩).1 ≠ ApiStatus.notFound := by
  constructor <;> decide

/-- C10 (amended): for an authenticated PATCH or DELETE on an asset id the
user does not own (or that does not exist), the handler returns an error
response — specifically not-found whenever the id passes the format check
(and, for PATCH, the body passes validation) — and the database state is
unchanged; conversely, any request that does change the state targeted an
asset row owned by the requesting user. -/
theorem C10_owner_only_mutation (uid id : String) (body : UpdateBody)
    (db : Db) :
    ((∀ a ∈ db.assets, ¬ (a.id = id ∧ a.userId = uid)) →
      (deleteAsset (some uid) id db).2 = db ∧
      ((deleteAsset (some uid) id db).1 = .badRequest ∨
        (deleteAsset (some uid) id db).1 = .notFound) ∧
      (20 ≤ id.length → (deleteAsset (some uid) id db).1 = .notFound) ∧
      (patchAsset (some uid) id body db).2 = db ∧
      ((patchAsset (some uid) id body db).1 = .badRequest ∨
        (patchAsset (some uid) id body db).1 = .notFound) ∧
      (20 ≤ id.length → validUpdateBody body = true →
        (patchAsset (some uid) id body db).1 = .notFound)) ∧
    ((deleteAsset (some uid) id db).2 ≠ db →
      ∃ a ∈ db.assets, a.id = id ∧ a.userId = uid) ∧
    ((patchAsset (some uid) id body db).2 ≠ db →
      ∃ a ∈ db.assets, a.id = id ∧ a.userId = uid) := by
  refine ⟨?_, ?_, ?_⟩
  · intro hno
    have hfind : db.assets.find? (fun a => a.id == id && a.userId == uid) =
        none := by
      rw [List.find?_eq_none]
      intro a ha
      simp only [Bool.and_eq_true, beq_iff_eq]
      exact hno a ha
    by_cases hlen : id.length < 20
    · refine ⟨by simp [deleteAsset, hlen], Or.inl (by simp [deleteAsset, hlen]),
        fun h => absurd h (by omega), by simp [patchAsset, hlen],
        Or.inl (by simp [patchAsset, hlen]), fun h => absurd h (by omega)⟩
    · by_cases hbody : validUpdateBody body = true
      · exact ⟨by simp [deleteAsset, hlen, hfind],
          Or.inr (by simp [deleteAsset, hlen, hfind]),
          fun _ => by simp [deleteAsset, hlen, hfind],
          by simp [patchAsset, hlen, hbody, hfind],
          Or.inr (by simp [patchAsset, hlen, hbody, hfind]),
          fun _ _ => by simp [patchAsset, hlen, hbody, hfind]⟩
      · exact ⟨by simp [deleteAsset, hlen, hfind],
          Or.inr (by simp [deleteAsset, hlen, hfind]),
          fun _ => by simp [deleteAsset, hlen, hfind],
          by simp [patchAsset, hlen, hbody],
          Or.inl (by simp [patchAsset, hlen, hbody]),
          fun _ hb => absurd hb hbody⟩
  · intro hne
    by_cases hlen : id.length < 20
    · exact absurd (by simp [deleteAsset, hlen]) hne
    · cases hfind : db.assets.find? (fun a => a.id == id && a.userId == uid)
        with
      | none => exact absurd (by simp [deleteAsset, hlen, hfind]) hne
      | some a =>
        have hpa := List.find?_some hfind
        have hmem := List.mem_of_find?_eq_some hfind
        simp only [Bool.and_eq_true, beq_iff_eq] at hpa
        exact ⟨a, hmem, hpa⟩
  · intro hne
    by_cases hlen : id.length < 20
    · exact absurd (by simp [patchAsset, hlen]) hne
    · by_cases hbody : validUpdateBody body = true
      · cases hfind : db.assets.find? (fun a => a.id == id && a.userId == uid)
          with
        | none => exact absurd (by simp [patchAsset, hlen, hbody, hfind]) hne
        | some a =>
          have hpa := List.find?_some hfind
          have hmem := List.mem_of_find?_eq_some hfind
          simp only [Bool.and_eq_true, beq_iff_eq] at hpa
          exact ⟨a, hmem, hpa⟩
      · exact absurd (by simp [patchAsset, hlen, hbody]) hne

/-- C10 witness: a well-formed id that matches no asset row yields exactly
not-found. -/
theorem C10_owner_only_mutation_witness :
    (deleteAsset (some "user1") "aaaaaaaaaaaaaaaaaaaaa" ⟨[], []⟩).1 =
      ApiStatus.notFound :=
  ((C10_owner_only_mutation "user1" "aaaaaaaaaaaaaaaaaaaaa"
    ⟨none, none, none⟩ ⟨[], []⟩).1 (by simp)).2.2.1 (by decide)

/-- `find?` returns the unique element that `filter` keeps. -/
theorem find?_of_filter_singleton {α : Type} (p : α → Bool) (l : List α)
    (x : α) (h : l.filter p = [x]) : l.find? p = some x := by
  induction l with
  | nil => simp at h
  | cons a l ih =>
    by_cases hpa : p a = true
    · rw [List.filter_cons_of_pos hpa] at h
      rw [List.find?_cons_of_pos l hpa]
      injection h with h1 _
      rw [h1]
    · rw [List.filter_cons_of_neg hpa] at h
      rw [List.find?_cons_of_neg l hpa]
      exact ih h

/-- Updating (by id) the unique row that `filter` keeps, in a list with
pairwise-distinct ids, updates exactly that row of the filtered view. -/
theorem filter_map_update (p : Asset → Bool) (g : Asset → Asset)
    (l : List Asset) (x : Asset)
    (hg : p (g x) = true)
    (hfil : l.filter p = [x])
    (hids : (l.map (fun a => a.id)).Nodup) :
    (l.map (fun a => if a.id = x.id then g a else a)).filter p = [g x] := by
  induction l with
  | nil => simp at hfil
  | cons a l ih =>
    rw [List.map_cons, List.nodup_cons] at hids
    obtain ⟨hnotin, hnodup⟩ := hids
    by_cases hpa : p a = true
    · rw [List.filter_cons_of_pos hpa] at hfil
      injection hfil with h1 h2
      subst h1
      simp only [List.map_cons, eq_self_iff_true, if_true]
      rw [List.filter_cons_of_pos hg]
      have hmap : l.map (fun b => if b.id = a.id then g b else b) = l := by
        conv_rhs => rw [← List.map_id l]
        apply List.map_congr_left
        intro b hb
        have hne : ¬ (b.id = a.id) := fun hbid =>
          hnotin (hbid ▸ List.mem_map_of_mem (fun c => c.id) hb)
        simp [hne]
      rw [hmap, h2]
    · rw [List.filter_cons_of_neg hpa] at hfil
      have hxl : x ∈ l := by
        have hxf : x ∈ l.filter p := by
          rw [hfil]
          exact List.mem_singleton_self x
        exact List.mem_of_mem_filter hxf
      have hax : ¬ (a.id = x.id) := by
        intro hid
        exact hnotin (hid ▸ List.mem_map_of_mem (fun c => c.id) hxl)
      simp only [List.map_cons, if_neg hax]
      rw [List.filter_cons_of_neg hpa]
      exact ih hfil hnodup

/-- C1: when the user already holds exactly one position for the (upper-cased)
ticker, `POST /api/portfolio` merges into that single row: the share count
becomes `existingShares + addedShares` and the stored average cost is exactly
`(existingShares*existingAvgCost + addedShares*addedPrice) /
(existingShares + addedShares)`; in particular 5 shares at 140 plus 10 shares
at 150 give the exact cost `(5*140+10*150)/15 = 2200/15`, which displays
(2-decimal rounding) as `146.67`. -/
theorem C1_weighted_average_merge (uid ticker : String)
    (shares avgPrice : ℚ) (purchaseDate : Option ℤ) (notes : Option String)
    (assets : List Asset) (newId : String) (nowDate : ℤ)
    (existingAsset : Asset)
    (hpos : positionsFor uid (jsToUpperCase ticker) assets = [existingAsset])
    (hids : (assets.map (fun a => a.id)).Nodup) :
    positionsFor uid (jsToUpperCase ticker)
        (postAddAsset uid ticker shares avgPrice purchaseDate notes assets
          newId nowDate) =
      [{ existingAsset with
          shares := existingAsset.shares + shares,
          avgPrice :=
            (existingAsset.shares * existingAsset.avgPrice +
              shares * avgPrice) / (existingAsset.shares + shares),
          notes := jsOrStr notes existingAsset.notes }] ∧
    ((5 : ℚ) * 140 + 10 * 150) / (5 + 10) = 2200/15 ∧
    round2 (((5 : ℚ) * 140 + 10 * 150) / (5 + 10)) = 14667/100 := by
  refine ⟨?_, by norm_num, by norm_num [round2, jsRound]⟩
  unfold positionsFor at hpos ⊢
  have hfind := find?_of_filter_singleton
    (fun a => a.ticker == jsToUpperCase ticker && a.userId == uid) assets
    existingAsset hpos
  have hx : (existingAsset.ticker == jsToUpperCase ticker &&
      existingAsset.userId == uid) = true := by
    have hmem : existingAsset ∈ assets.filter
        (fun a => a.ticker == jsToUpperCase ticker && a.userId == uid) := by
      rw [hpos]
      exact List.mem_singleton_self existingAsset
    exact (List.mem_filter.mp hmem).2
  simp only [postAddAsset, hfind]
  exact filter_map_update _ _ assets existingAsset hx hpos hids

/-- C1 witness: adding 10 shares at 150 to an existing single position of 5
shares at 140 yields one merged position of 15 shares at exactly
`(5*140 + 10*150)/(5+10)`. -/
theorem C1_weighted_average_merge_witness :
    positionsFor "u" (jsToUpperCase "AAPL")
        (postAddAsset "u" "AAPL" 10 150 none none
          [⟨"a0000000000000000000000", "AAPL", 5, 140, 0, none, "u"⟩]
          "b0000000000000000000000" 0) =
      [{ (⟨"a0000000000000000000000", "AAPL", 5, 140, 0, none, "u"⟩ : Asset)
          with
          shares := (5 : ℚ) + 10,
          avgPrice := ((5 : ℚ) * 140 + 10 * 150) / ((5 : ℚ) + 10),
          notes := jsOrStr none none }] :=
  (C1_weighted_average_merge "u" "AAPL" 10 150 none none
    [⟨"a0000000000000000000000", "AAPL", 5, 140, 0, none, "u"⟩]
    "b0000000000000000000000" 0
    ⟨"a0000000000000000000000", "AAPL", 5, 140, 0, none, "u"⟩
    rfl (by simp)).1

end Stocklio
